import Mathlib

/-!
Shallow embedding of the trading engine core (risk manager, sentiment
strategy, execution loop) of the `trading` repository.

JavaScript numbers are modelled as exact rationals (ℚ); every comparison in
the embedded code paths is between values for which rational and IEEE-754
arithmetic agree at the claims' inputs.  JavaScript `Map`s are modelled as
association lists with the unique-key discipline a `Map` maintains; calendar
dates (`Date.toDateString()` results) are opaque strings, and the current
time (`Date.now()`, millisecond epoch) is an explicit ℚ parameter.
Falsy-value tests (`order.limitPrice || 100`, `if (!currentPrice)`) are
modelled on `Option ℚ` with an explicit zero test, matching JS truthiness
for numbers that are not NaN.
-/

namespace Trading

/-! ### Association-list model of JavaScript Map -/

def alookup {β : Type} : List (String × β) → String → Option β
  | [], _ => none
  | (k, v) :: rest, key => if k = key then some v else alookup rest key

def aset {β : Type} : List (String × β) → String → β → List (String × β)
  | [], key, v => [(key, v)]
  | (k, w) :: rest, key, v =>
      if k = key then (key, v) :: rest else (k, w) :: aset rest key v

def aerase {β : Type} (l : List (String × β)) (key : String) : List (String × β) :=
  l.filter (fun kv => kv.1 ≠ key)

/-! ### Risk manager (src/trading/risk-manager.js) -/

structure Position where
  symbol : String
  marketValue : Option ℚ
deriving Repr, DecidableEq

structure RiskConfig where
  maxPositionSize : ℚ
  maxDailyLoss : ℚ
  maxPortfolioRisk : ℚ
  stopLossPercentage : ℚ
  maxOpenPositions : Nat
  blacklistedSymbols : List String
deriving Repr, DecidableEq

structure RiskState where
  config : RiskConfig
  dailyPnl : ℚ
  dailyTrades : Nat
  lastResetDate : String
deriving Repr, DecidableEq

/-- The order object handed to `RiskManager.validateOrder` (the engine builds
`{symbol, qty, side, type}` with no limit price; a caller may pass one). -/
structure ROrder where
  symbol : String
  qty : ℚ
  side : String
  type : String
  limitPrice : Option ℚ
deriving Repr, DecidableEq

inductive RejectReason
  | blacklisted
  | dailyLossLimit
  | positionSizeTooLarge
  | tooManyOpenPositions
  | portfolioRiskTooHigh
  | symbolConcentrationTooHigh
deriving Repr, DecidableEq

structure RiskDecision where
  state : RiskState
  ok : Bool
  reason : Option RejectReason
deriving Repr, DecidableEq

/-- JS `order.limitPrice || 100`: undefined and 0 are falsy. -/
def effectivePrice (o : ROrder) : ℚ :=
  match o.limitPrice with
  | none => 100
  | some p => if p = 0 then 100 else p

def orderValue (o : ROrder) : ℚ := o.qty * effectivePrice o

/-- JS `Math.abs(pos.marketValue || 0)`. -/
def absMarketValue (p : Position) : ℚ := |(p.marketValue.getD 0)|

def totalAbsValue (ps : List Position) : ℚ :=
  ps.foldl (fun s p => s + absMarketValue p) 0

def flattenPositions (m : List (String × List Position)) : List Position :=
  m.foldl (fun acc kv => acc ++ kv.2) []

def validatePortfolioRisk (cfg : RiskConfig) (o : ROrder) (ps : List Position) : Bool :=
  let totalPortfolioValue := totalAbsValue ps
  if totalPortfolioValue = 0 then true
  else
    let riskPercentage := orderValue o / totalPortfolioValue
    if riskPercentage > cfg.maxPortfolioRisk then false else true

def validatePositionConcentration (cfg : RiskConfig) (o : ROrder) (ps : List Position) : Bool :=
  let totalSymbolValue := totalAbsValue (ps.filter (fun p => p.symbol = o.symbol))
  if totalSymbolValue + orderValue o > cfg.maxPositionSize then false else true

def resetDailyCountersIfNeeded (today : String) (st : RiskState) : RiskState :=
  if st.lastResetDate ≠ today then
    { st with dailyPnl := 0, dailyTrades := 0, lastResetDate := today }
  else st

/-- Embeds `RiskManager.validateOrder(order, positions)`, with the current date (the
JS `new Date().toDateString()`) passed explicitly.  The rejection reason
records which check's log message fired. -/
def validateOrder (today : String) (o : ROrder) (posMap : List (String × List Position))
    (st0 : RiskState) : RiskDecision :=
  let st := resetDailyCountersIfNeeded today st0
  if o.symbol ∈ st.config.blacklistedSymbols then
    ⟨st, false, some .blacklisted⟩
  else if st.dailyPnl ≤ -st.config.maxDailyLoss then
    ⟨st, false, some .dailyLossLimit⟩
  else if orderValue o > st.config.maxPositionSize then
    ⟨st, false, some .positionSizeTooLarge⟩
  else
    let allPositions := flattenPositions posMap
    if st.config.maxOpenPositions ≤ allPositions.length ∧ o.side = "buy" then
      ⟨st, false, some .tooManyOpenPositions⟩
    else if ¬ validatePortfolioRisk st.config o allPositions then
      ⟨st, false, some .portfolioRiskTooHigh⟩
    else if ¬ validatePositionConcentration st.config o allPositions then
      ⟨st, false, some .symbolConcentrationTooHigh⟩
    else
      ⟨st, true, none⟩

def updateDailyPnl (today : String) (pnl : ℚ) (st0 : RiskState) : RiskState :=
  let st := resetDailyCountersIfNeeded today st0
  { st with dailyPnl := st.dailyPnl + pnl, dailyTrades := st.dailyTrades + 1 }

/-! ### News-based sentiment strategy
(src/trading/strategies/news-based-strategy.js, strategy-base.js) -/

structure StratConfig where
  sentimentThreshold : ℚ
  buzzThreshold : ℚ
  positionSize : ℚ
  holdingPeriod : ℚ
  watchlist : List String
deriving Repr, DecidableEq

/-- One entry of the aggregator summary (`latestData.summary[symbol]`). -/
structure Analysis where
  sentimentScore : ℚ
  buzzScore : ℚ
  newsMentions : ℚ
deriving Repr, DecidableEq

/-- One entry of `this.activePositions`. -/
structure PosEntry where
  entryTime : ℚ
  entryPrice : ℚ
  reason : String
deriving Repr, DecidableEq

inductive Action
  | buy
  | sell
deriving Repr, DecidableEq

def Action.sideString : Action → String
  | .buy => "buy"
  | .sell => "sell"

/-- Reason codes carried by strategy signals: the buy path tags
`positive_sentiment_buzz`; the sell path computes one of the four codes
(initialised `unknown` in the source). -/
inductive Reason
  | positive_sentiment_buzz
  | holding_period_exceeded
  | negative_sentiment
  | stop_loss
  | take_profit
  | unknown
deriving Repr, DecidableEq

/-- A strategy signal as built by `BaseStrategy.createSignal`. -/
structure Signal where
  symbol : String
  action : Action
  quantity : ℚ
  orderType : String
  limitPrice : Option ℚ
  stopPrice : Option ℚ
  timeInForce : String
  reason : Reason
deriving Repr, DecidableEq

abbrev ActiveMap := List (String × PosEntry)

/-- Embeds `evaluateBuySignal(symbol, analysis, currentPrice)`; `now` is the
millisecond clock used for `new Date()`.  Returns the updated
`activePositions` map and the optional signal. -/
def evaluateBuySignal (cfg : StratConfig) (active : ActiveMap) (symbol : String)
    (analysis : Analysis) (currentPrice now : ℚ) : ActiveMap × Option Signal :=
  if (alookup active symbol).isSome then (active, none)
  else
    if analysis.sentimentScore ≥ cfg.sentimentThreshold ∧
        analysis.buzzScore ≥ cfg.buzzThreshold ∧
        analysis.newsMentions > 0 then
      (aset active symbol ⟨now, currentPrice, "positive_sentiment_buzz"⟩,
       some ⟨symbol, .buy, cfg.positionSize, "market", none, none, "gtc",
             .positive_sentiment_buzz⟩)
    else (active, none)

/-- Embeds `evaluateSellSignal(symbol, analysis, currentPrice)`; `now` is the
millisecond clock used for `Date.now()`. -/
def evaluateSellSignal (cfg : StratConfig) (active : ActiveMap) (symbol : String)
    (analysis : Analysis) (currentPrice now : ℚ) : ActiveMap × Option Signal :=
  match alookup active symbol with
  | none => (active, none)
  | some position =>
    let holdingTime := now - position.entryTime
    let priceChange := (currentPrice - position.entryPrice) / position.entryPrice
    let holdingPeriodExceeded := holdingTime ≥ cfg.holdingPeriod
    let strongNegativeSentiment := analysis.sentimentScore ≤ -cfg.sentimentThreshold
    let stopLoss := priceChange ≤ -(5/100)
    let takeProfit := priceChange ≥ 10/100
    if holdingPeriodExceeded ∨ strongNegativeSentiment ∨ stopLoss ∨ takeProfit then
      let reason :=
        if holdingPeriodExceeded then Reason.holding_period_exceeded
        else if strongNegativeSentiment then Reason.negative_sentiment
        else if stopLoss then Reason.stop_loss
        else if takeProfit then Reason.take_profit
        else Reason.unknown
      (aerase active symbol,
       some ⟨symbol, .sell, cfg.positionSize, "market", none, none, "gtc", reason⟩)
    else (active, none)

/-- One iteration of the `for (const symbol of this.watchlist)` loop in
`evaluate`: skip when the summary has no entry for the symbol or the market
price is missing or falsy; otherwise run the buy check then the sell check. -/
def evalStep (cfg : StratConfig) (summary : String → Option Analysis)
    (marketPrice : String → Option ℚ) (now : ℚ) (active : ActiveMap)
    (symbol : String) : ActiveMap × List Signal :=
  match summary symbol with
  | none => (active, [])
  | some analysis =>
    match marketPrice symbol with
    | none => (active, [])
    | some currentPrice =>
      if currentPrice = 0 then (active, [])
      else
        let b := evaluateBuySignal cfg active symbol analysis currentPrice now
        let s := evaluateSellSignal cfg b.1 symbol analysis currentPrice now
        (s.1, b.2.toList ++ s.2.toList)

def evalList (cfg : StratConfig) (summary : String → Option Analysis)
    (marketPrice : String → Option ℚ) (now : ℚ) :
    ActiveMap → List String → ActiveMap × List Signal
  | active, [] => (active, [])
  | active, symbol :: rest =>
    let h := evalStep cfg summary marketPrice now active symbol
    let t := evalList cfg summary marketPrice now h.1 rest
    (t.1, h.2 ++ t.2)

/-- Embeds `NewsBasedStrategy.evaluate(marketData)` with the aggregator summary and
market prices supplied as snapshots. -/
def evaluate (cfg : StratConfig) (active : ActiveMap)
    (summary : String → Option Analysis) (marketPrice : String → Option ℚ)
    (now : ℚ) : ActiveMap × List Signal :=
  evalList cfg summary marketPrice now active cfg.watchlist

/-! ### Trading engine (src/trading/trading-engine.js) -/

/-- The order object `executeSignal` builds and hands to `broker.placeOrder`. -/
structure BrokerOrder where
  symbol : String
  qty : ℚ
  side : String
  type : String
  limitPrice : Option ℚ
  stopPrice : Option ℚ
  timeInForce : String
deriving Repr, DecidableEq

/-- What `broker.placeOrder` resolves with on success (alpaca-broker.js). -/
structure OrderResult where
  orderId : String
  symbol : String
  qty : ℚ
  side : String
  type : String
  status : String
deriving Repr, DecidableEq

/-- One entry of `broker.getOrderHistory()` (alpaca-broker.js). -/
structure OrderSnapshot where
  orderId : String
  symbol : String
  qty : ℚ
  side : String
  type : String
  status : String
  filledQty : ℚ
  avgFillPrice : ℚ
deriving Repr, DecidableEq

/-- A value of `this.orders`: the placeOrder result spread together with the
strategy name and originating signal; `filledQty`/`avgFillPrice` appear only
after a reconciliation merged a history snapshot in. -/
structure OrderInfo where
  orderId : String
  symbol : String
  qty : ℚ
  side : String
  type : String
  status : String
  filledQty : Option ℚ
  avgFillPrice : Option ℚ
  strategyName : String
  signal : Signal
deriving Repr, DecidableEq

inductive EngineEvent
  | order_placed (orderId : String)
  | order_failed (symbol : String)
  | order_updated (orderId : String)
deriving Repr, DecidableEq

abbrev Registry := List (String × OrderInfo)

/-- The JS spread `{...result, strategyName, signal}` stored by
`executeSignal`. -/
def mkOrderInfo (result : OrderResult) (strategyName : String) (signal : Signal) :
    OrderInfo :=
  ⟨result.orderId, result.symbol, result.qty, result.side, result.type,
   result.status, none, none, strategyName, signal⟩

/-- The JS spread `{...orderInfo, ...currentOrder}` used by `processOrders`:
every field of the history snapshot overrides the stored one. -/
def mergeOrder (info : OrderInfo) (cur : OrderSnapshot) : OrderInfo :=
  { info with
    orderId := cur.orderId, symbol := cur.symbol, qty := cur.qty,
    side := cur.side, type := cur.type, status := cur.status,
    filledQty := some cur.filledQty, avgFillPrice := some cur.avgFillPrice }

/-- The order object `executeSignal` constructs from an approved signal. -/
def toBrokerOrder (signal : Signal) : BrokerOrder :=
  ⟨signal.symbol, signal.quantity, signal.action.sideString, signal.orderType,
   signal.limitPrice, signal.stopPrice, signal.timeInForce⟩

/-- Embeds `executeSignal(signal, strategyName)` with the broker's `placeOrder`
behaviour passed as a function: success inserts `{...result, strategyName,
signal}` under the broker-assigned id and emits `order_placed`; a thrown
error is caught, the registry is untouched, and `order_failed` is emitted. -/
def executeSignal (placeOrder : BrokerOrder → Except String OrderResult)
    (strategyName : String) (signal : Signal) (orders : Registry) :
    Registry × List EngineEvent :=
  match placeOrder (toBrokerOrder signal) with
  | .ok result =>
      (aset orders result.orderId (mkOrderInfo result strategyName signal),
       [.order_placed result.orderId])
  | .error _ => (orders, [.order_failed signal.symbol])

/-- Embeds `validateSignal(signal, strategyName)`: basic falsy-field validation
(an empty symbol and a zero quantity are the falsy cases expressible in this
model), then the risk manager, which sees `{symbol, qty, side, type}` with no
limit price. -/
def validateSignal (today : String) (rs : RiskState) (signal : Signal)
    (posMap : List (String × List Position)) : RiskState × Option Signal :=
  if signal.symbol = "" ∨ signal.quantity = 0 then (rs, none)
  else
    let d := validateOrder today
      ⟨signal.symbol, signal.quantity, signal.action.sideString,
       signal.orderType, none⟩ posMap rs
    if d.ok then (d.state, some signal) else (d.state, none)

/-- Embeds `processSignals(signals, strategyName)`: validate then execute each
signal in order; a failure for one signal (caught inside `executeSignal`)
does not stop the loop. -/
def processSignals (placeOrder : BrokerOrder → Except String OrderResult)
    (today : String) (posMap : List (String × List Position))
    (strategyName : String) :
    RiskState → Registry → List Signal →
      RiskState × Registry × List EngineEvent
  | rs, orders, [] => (rs, orders, [])
  | rs, orders, signal :: rest =>
    let v := validateSignal today rs signal posMap
    match v.2 with
    | none => processSignals placeOrder today posMap strategyName v.1 orders rest
    | some s =>
      let e := executeSignal placeOrder strategyName s orders
      let r := processSignals placeOrder today posMap strategyName v.1 e.1 rest
      (r.1, r.2.1, e.2 ++ r.2.2)

/-- Embeds `processOrders()` against a fixed order-history snapshot: for each
tracked order, look it up in the history; when found with a different
status, merge the snapshot over the stored entry and emit `order_updated`;
otherwise leave the entry alone. -/
def processOrders (history : List OrderSnapshot) :
    Registry → Registry × List EngineEvent
  | [] => ([], [])
  | (orderId, orderInfo) :: rest =>
    let t := processOrders history rest
    match history.find? (fun o => o.orderId == orderId) with
    | some currentOrder =>
      if currentOrder.status ≠ orderInfo.status then
        ((orderId, mergeOrder orderInfo currentOrder) :: t.1,
         .order_updated orderId :: t.2)
      else ((orderId, orderInfo) :: t.1, t.2)
    | none => ((orderId, orderInfo) :: t.1, t.2)

/-- Engine state relevant to `start()`. -/
structure EngineState where
  running : Bool
  orders : Registry
  positions : List (String × List Position)
  strategyNames : List String
deriving Repr, DecidableEq

def authAll (auth : String → Except String Unit) : List String → Except String Unit
  | [] => .ok ()
  | name :: rest =>
    match auth name with
    | .ok _ => authAll auth rest
    | .error e => .error e

/-- Embeds `start()`: it throws the error message `Trading engine is already running` when the running
flag is set (before any mutation); otherwise sets the flag, then
authenticates every broker, rethrowing the first failure.  The returned
`Option String` is the error thrown, if any. -/
def start (auth : String → Except String Unit) (brokerNames : List String)
    (st : EngineState) : EngineState × Option String :=
  if st.running then (st, some "Trading engine is already running")
  else
    let st1 := { st with running := true }
    match authAll auth brokerNames with
    | .ok _ => (st1, none)
    | .error e => (st1, some e)

/-- One strategy's share of a tick: `evaluate` followed by
`processSignals` on the returned signals.  The strategy's per-symbol state
is produced by `evaluate` alone; the signal-processing pipeline (risk gate,
broker submission) neither reads nor writes it. -/
def strategyTick (cfg : StratConfig) (active : ActiveMap)
    (summary : String → Option Analysis) (marketPrice : String → Option ℚ)
    (now : ℚ) (placeOrder : BrokerOrder → Except String OrderResult)
    (today : String) (posMap : List (String × List Position))
    (strategyName : String) (rs : RiskState) (orders : Registry) :
    ActiveMap × (RiskState × Registry × List EngineEvent) :=
  let ev := evaluate cfg active summary marketPrice now
  (ev.1, processSignals placeOrder today posMap strategyName rs orders ev.2)

/-! ### Helper lemmas -/

theorem alookup_aset_self {β : Type} (l : List (String × β)) (k : String) (v : β) :
    alookup (aset l k v) k = some v := by
  induction l with
  | nil => simp [aset, alookup]
  | cons kv rest ih =>
    obtain ⟨a, b⟩ := kv
    by_cases h : a = k
    · simp [aset, alookup, h]
    · simp [aset, alookup, h, ih]

theorem alookup_aerase_self {β : Type} (l : List (String × β)) (k : String) :
    alookup (aerase l k) k = none := by
  induction l with
  | nil => simp [aerase, alookup]
  | cons kv rest ih =>
    obtain ⟨a, b⟩ := kv
    by_cases h : a = k
    · simpa [aerase, alookup, h] using ih
    · simpa [aerase, alookup, h] using ih

theorem resetDailyCountersIfNeeded_config (today : String) (st : RiskState) :
    (resetDailyCountersIfNeeded today st).config = st.config := by
  unfold resetDailyCountersIfNeeded
  split <;> rfl

theorem resetDailyCountersIfNeeded_of_eq {today : String} {st : RiskState}
    (h : st.lastResetDate = today) : resetDailyCountersIfNeeded today st = st := by
  simp [resetDailyCountersIfNeeded, h]

theorem resetDailyCountersIfNeeded_of_ne {today : String} {st : RiskState}
    (h : st.lastResetDate ≠ today) :
    resetDailyCountersIfNeeded today st =
      { st with dailyPnl := 0, dailyTrades := 0, lastResetDate := today } := by
  simp [resetDailyCountersIfNeeded, h]

theorem evaluateBuySignal_some_eq (cfg : StratConfig) (active : ActiveMap)
    (sym : String) (a : Analysis) (price now : ℚ) (sig : Signal)
    (h : (evaluateBuySignal cfg active sym a price now).2 = some sig) :
    sig = ⟨sym, Action.buy, cfg.positionSize, "market", none, none, "gtc",
        Reason.positive_sentiment_buzz⟩
    ∧ (evaluateBuySignal cfg active sym a price now).1 =
        aset active sym ⟨now, price, "positive_sentiment_buzz"⟩
    ∧ a.sentimentScore ≥ cfg.sentimentThreshold := by
  by_cases h1 : (alookup active sym).isSome
  · simp [evaluateBuySignal, h1] at h
  · by_cases h2 : (a.sentimentScore ≥ cfg.sentimentThreshold ∧
        a.buzzScore ≥ cfg.buzzThreshold ∧ a.newsMentions > 0)
    · have he : evaluateBuySignal cfg active sym a price now =
          (aset active sym ⟨now, price, "positive_sentiment_buzz"⟩,
           some ⟨sym, Action.buy, cfg.positionSize, "market", none, none, "gtc",
             Reason.positive_sentiment_buzz⟩) := by
        simp [evaluateBuySignal, h1, h2]
      rw [he] at h
      simp only [Option.some.injEq] at h
      exact ⟨h.symm, by rw [he], h2.1⟩
    · simp [evaluateBuySignal, h1, h2] at h

theorem evaluateBuySignal_none_state (cfg : StratConfig) (active : ActiveMap)
    (sym : String) (a : Analysis) (price now : ℚ)
    (h : (evaluateBuySignal cfg active sym a price now).2 = none) :
    (evaluateBuySignal cfg active sym a price now).1 = active := by
  by_cases h1 : (alookup active sym).isSome
  · simp [evaluateBuySignal, h1]
  · by_cases h2 : (a.sentimentScore ≥ cfg.sentimentThreshold ∧
        a.buzzScore ≥ cfg.buzzThreshold ∧ a.newsMentions > 0)
    · simp [evaluateBuySignal, h1, h2] at h
    · simp [evaluateBuySignal, h1, h2]

theorem evaluateSellSignal_some_symbol (cfg : StratConfig) (active : ActiveMap)
    (sym : String) (a : Analysis) (price now : ℚ) (sig : Signal)
    (h : (evaluateSellSignal cfg active sym a price now).2 = some sig) :
    sig.symbol = sym := by
  cases hl : alookup active sym with
  | none => simp [evaluateSellSignal, hl] at h
  | some pos =>
    simp only [evaluateSellSignal, hl] at h
    split at h
    · simp only [Option.some.injEq] at h
      subst h
      rfl
    · simp at h

/-- With a positive holding period and a positive sentiment threshold, the
sell check run right after a buy fired in the same evaluation (entry time =
`now`, entry price = `price`, sentiment at or above the threshold) emits
nothing. -/
theorem sell_after_buy_none (cfg : StratConfig) (active : ActiveMap) (sym : String)
    (a : Analysis) (price now : ℚ) (hhp : 0 < cfg.holdingPeriod)
    (hth : 0 < cfg.sentimentThreshold)
    (hsent : a.sentimentScore ≥ cfg.sentimentThreshold) :
    evaluateSellSignal cfg (aset active sym ⟨now, price, "positive_sentiment_buzz"⟩)
        sym a price now =
      (aset active sym ⟨now, price, "positive_sentiment_buzz"⟩, none) := by
  have hl := alookup_aset_self active sym (⟨now, price, "positive_sentiment_buzz"⟩ : PosEntry)
  have hcond : ¬(now - now ≥ cfg.holdingPeriod ∨
      a.sentimentScore ≤ -cfg.sentimentThreshold ∨
      (price - price) / price ≤ -(5/100) ∨
      (price - price) / price ≥ 10/100) := by
    push_neg
    refine ⟨by linarith, by linarith, ?_, ?_⟩ <;>
      rw [sub_self, zero_div] <;> norm_num
  simp only [evaluateSellSignal, hl, if_neg hcond]

theorem evalStep_mem_symbol (cfg : StratConfig) (summary : String → Option Analysis)
    (md : String → Option ℚ) (now : ℚ) (active : ActiveMap) (sym : String) :
    ∀ sig ∈ (evalStep cfg summary md now active sym).2, sig.symbol = sym := by
  intro sig hsig
  unfold evalStep at hsig
  cases hsum : summary sym with
  | none => rw [hsum] at hsig; simp at hsig
  | some a =>
    rw [hsum] at hsig
    cases hmd : md sym with
    | none => rw [hmd] at hsig; simp at hsig
    | some p =>
      rw [hmd] at hsig
      by_cases hp0 : p = 0
      · simp [hp0] at hsig
      · simp only [hp0, if_false] at hsig
        simp only [List.mem_append] at hsig
        rcases hsig with hb | hs
        · cases hbv : (evaluateBuySignal cfg active sym a p now).2 with
          | none => rw [hbv] at hb; simp at hb
          | some sb =>
            rw [hbv] at hb
            simp only [Option.toList_some, List.mem_singleton] at hb
            subst hb
            rw [(evaluateBuySignal_some_eq cfg active sym a p now sig hbv).1]
        · cases hsv : (evaluateSellSignal cfg
              (evaluateBuySignal cfg active sym a p now).1 sym a p now).2 with
          | none => rw [hsv] at hs; simp at hs
          | some ss =>
            rw [hsv] at hs
            simp only [Option.toList_some, List.mem_singleton] at hs
            subst hs
            exact evaluateSellSignal_some_symbol cfg _ sym a p now sig hsv

theorem evalStep_length_le (cfg : StratConfig) (summary : String → Option Analysis)
    (md : String → Option ℚ) (now : ℚ) (active : ActiveMap) (sym : String)
    (hhp : 0 < cfg.holdingPeriod) (hth : 0 < cfg.sentimentThreshold) :
    (evalStep cfg summary md now active sym).2.length ≤ 1 := by
  unfold evalStep
  cases hsum : summary sym with
  | none => simp
  | some a =>
    cases hmd : md sym with
    | none => simp
    | some p =>
      by_cases hp0 : p = 0
      · simp [hp0]
      · simp only [hp0, if_false]
        cases hbv : (evaluateBuySignal cfg active sym a p now).2 with
        | none =>
          cases hsv : (evaluateSellSignal cfg
              (evaluateBuySignal cfg active sym a p now).1 sym a p now).2 <;>
            simp [hsv]
        | some sb =>
          have hchar := evaluateBuySignal_some_eq cfg active sym a p now sb hbv
          rw [hchar.2.1, sell_after_buy_none cfg active sym a p now hhp hth hchar.2.2]
          simp

theorem evalList_mem_symbol (cfg : StratConfig) (summary : String → Option Analysis)
    (md : String → Option ℚ) (now : ℚ) :
    ∀ (l : List String) (active : ActiveMap),
      ∀ sig ∈ (evalList cfg summary md now active l).2, sig.symbol ∈ l := by
  intro l
  induction l with
  | nil => intro active sig hsig; simp [evalList] at hsig
  | cons hd tl ih =>
    intro active sig hsig
    simp only [evalList, List.mem_append] at hsig
    rcases hsig with hh | ht
    · rw [evalStep_mem_symbol cfg summary md now active hd sig hh]
      exact List.mem_cons_self hd tl
    · exact List.mem_cons_of_mem hd
        (ih (evalStep cfg summary md now active hd).1 sig ht)

/-! ### Claims about the risk manager -/

/-- Claim C2: for every order and position set, if the daily realized P&L
counter is at most `-maxDailyLoss` and the current date equals the
last-reset date, `validateOrder` rejects; and on the first call whose date
differs from the last-reset date, `dailyPnl` and `dailyTrades` are reset to
0 before any check runs — the call behaves exactly as on the state with
zeroed counters and the new date, so an otherwise-valid order is accepted. -/
theorem daily_loss_stop_lazy_reset (st : RiskState) (o : ROrder)
    (posMap : List (String × List Position)) (today : String) :
    (today = st.lastResetDate → st.dailyPnl ≤ -st.config.maxDailyLoss →
      (validateOrder today o posMap st).ok = false)
    ∧ (today ≠ st.lastResetDate →
      validateOrder today o posMap st =
        validateOrder today o posMap
          { st with dailyPnl := 0, dailyTrades := 0, lastResetDate := today }) := by
  constructor
  · intro hdate hpnl
    simp only [validateOrder, resetDailyCountersIfNeeded_of_eq hdate.symm]
    split_ifs <;> simp_all
  · intro hne
    have h2 : resetDailyCountersIfNeeded today
        { st with dailyPnl := 0, dailyTrades := 0, lastResetDate := today } =
        { st with dailyPnl := 0, dailyTrades := 0, lastResetDate := today } :=
      resetDailyCountersIfNeeded_of_eq rfl
    unfold validateOrder
    rw [resetDailyCountersIfNeeded_of_ne (fun h => hne h.symm), h2]

/-- Witness for C2 at Scenario E: counters carry `dailyPnl = -500` under
date `Mon Jan 01 2024`; the first validation dated `Tue Jan 02 2024`
behaves as if the counters were zeroed, and the otherwise-valid boundary
order is accepted. -/
theorem daily_loss_stop_lazy_reset_witness :
    (validateOrder "Tue Jan 02 2024"
        ⟨"AAPL", 10, "buy", "limit", some 100⟩ []
        ⟨⟨1000, 500, 1/50, 1/50, 10, []⟩, -500, 3, "Mon Jan 01 2024"⟩ =
      validateOrder "Tue Jan 02 2024"
        ⟨"AAPL", 10, "buy", "limit", some 100⟩ []
        ⟨⟨1000, 500, 1/50, 1/50, 10, []⟩, 0, 0, "Tue Jan 02 2024"⟩)
    ∧ (validateOrder "Tue Jan 02 2024"
        ⟨"AAPL", 10, "buy", "limit", some 100⟩ []
        ⟨⟨1000, 500, 1/50, 1/50, 10, []⟩, -500, 3, "Mon Jan 01 2024"⟩).ok = true := by
  have h := (daily_loss_stop_lazy_reset
    ⟨⟨1000, 500, 1/50, 1/50, 10, []⟩, -500, 3, "Mon Jan 01 2024"⟩
    ⟨"AAPL", 10, "buy", "limit", some 100⟩ [] "Tue Jan 02 2024").2 (by decide)
  refine ⟨h, ?_⟩
  rw [h]
  norm_num [validateOrder, resetDailyCountersIfNeeded, orderValue, effectivePrice,
    flattenPositions, validatePortfolioRisk, validatePositionConcentration,
    totalAbsValue, absMarketValue]

/-- Claim C3: with limits maxPositionSize 1000 and maxDailyLoss 500, fresh
daily counters, no positions and no blacklist, the buy order for 10 AAPL at
limit 100 (notional exactly 1000) is accepted, and the order for 11 AAPL at
limit 100 (notional 1100) is rejected for the position-size reason. -/
theorem position_size_boundary :
    (validateOrder "d" ⟨"AAPL", 10, "buy", "limit", some 100⟩ []
        ⟨⟨1000, 500, 1/50, 1/50, 10, []⟩, 0, 0, "d"⟩).ok = true
    ∧ (validateOrder "d" ⟨"AAPL", 11, "buy", "limit", some 100⟩ []
        ⟨⟨1000, 500, 1/50, 1/50, 10, []⟩, 0, 0, "d"⟩).ok = false
    ∧ (validateOrder "d" ⟨"AAPL", 11, "buy", "limit", some 100⟩ []
        ⟨⟨1000, 500, 1/50, 1/50, 10, []⟩, 0, 0, "d"⟩).reason
        = some RejectReason.positionSizeTooLarge := by
  refine ⟨?_, ?_, ?_⟩ <;>
    norm_num [validateOrder, resetDailyCountersIfNeeded, orderValue, effectivePrice,
      flattenPositions, validatePortfolioRisk, validatePositionConcentration,
      totalAbsValue, absMarketValue]

/-- Claim C9: the notional position-size check and the per-symbol
concentration check ignore the order side — only the max-open-positions
check is conditioned on `side = "buy"`.  Every sell order whose
`qty * (limitPrice || 100)` exceeds `maxPositionSize` is rejected, and when
the open-position count is below `maxOpenPositions` the decision is
completely independent of the side field. -/
theorem risk_checks_side_independent (st : RiskState) (o : ROrder)
    (posMap : List (String × List Position)) (today : String) :
    (o.side = "sell" → orderValue o > st.config.maxPositionSize →
      (validateOrder today o posMap st).ok = false)
    ∧ ((flattenPositions posMap).length < st.config.maxOpenPositions →
      ∀ s, validateOrder today { o with side := s } posMap st =
        validateOrder today o posMap st) := by
  constructor
  · intro _ hval
    have hc := resetDailyCountersIfNeeded_config today st
    simp only [validateOrder]
    split_ifs with h1 h2 h3 <;> simp_all
  · intro hlt s
    have hc := resetDailyCountersIfNeeded_config today st
    have hno : ¬((resetDailyCountersIfNeeded today st).config.maxOpenPositions ≤
        (flattenPositions posMap).length) := by
      rw [hc]; omega
    simp only [validateOrder]
    split_ifs with h1 h2 h3 h4 h5 h6 <;>
      simp_all [show ∀ s, orderValue { o with side := s } = orderValue o from fun _ => rfl,
        show ∀ s ps, validatePortfolioRisk st.config { o with side := s } ps =
          validatePortfolioRisk st.config o ps from fun _ _ => rfl,
        show ∀ s ps, validatePositionConcentration st.config { o with side := s } ps =
          validatePositionConcentration st.config o ps from fun _ _ => rfl] <;>
      linarith

/-- Witness for C9: a sell order for 20 shares at limit 100 (notional 2000,
limit 1000) is rejected, and with no open positions the decision for a
5-share order does not depend on the side string at all. -/
theorem risk_checks_side_independent_witness :
    (validateOrder "d" ⟨"AAPL", 20, "sell", "market", some 100⟩ []
        ⟨⟨1000, 500, 1/50, 1/50, 10, []⟩, 0, 0, "d"⟩).ok = false
    ∧ validateOrder "d" ⟨"AAPL", 5, "held", "market", some 100⟩ []
        ⟨⟨1000, 500, 1/50, 1/50, 10, []⟩, 0, 0, "d"⟩ =
      validateOrder "d" ⟨"AAPL", 5, "buy", "market", some 100⟩ []
        ⟨⟨1000, 500, 1/50, 1/50, 10, []⟩, 0, 0, "d"⟩ := by
  constructor
  · exact (risk_checks_side_independent
      ⟨⟨1000, 500, 1/50, 1/50, 10, []⟩, 0, 0, "d"⟩
      ⟨"AAPL", 20, "sell", "market", some 100⟩ [] "d").1 rfl
      (by norm_num [orderValue, effectivePrice])
  · exact (risk_checks_side_independent
      ⟨⟨1000, 500, 1/50, 1/50, 10, []⟩, 0, 0, "d"⟩
      ⟨"AAPL", 5, "buy", "market", some 100⟩ [] "d").2 (by decide) "held"

/-! ### Claims about the sentiment strategy -/

/-- Claim C4: for a symbol the strategy holds active, a sell signal is
emitted exactly when one of the four conditions holds (holding period
elapsed; sentiment at or below the negated threshold; return at or below
-5%; return at or above +10%), the reason code follows that priority order,
and the symbol transitions back to flat. -/
theorem sell_rule_disjunction_priority (cfg : StratConfig) (active : ActiveMap)
    (sym : String) (a : Analysis) (price now : ℚ) (pos : PosEntry)
    (hpos : alookup active sym = some pos) :
    ((evaluateSellSignal cfg active sym a price now).2.isSome ↔
      (now - pos.entryTime ≥ cfg.holdingPeriod ∨
       a.sentimentScore ≤ -cfg.sentimentThreshold ∨
       (price - pos.entryPrice) / pos.entryPrice ≤ -(5/100) ∨
       (price - pos.entryPrice) / pos.entryPrice ≥ 10/100))
    ∧ ((evaluateSellSignal cfg active sym a price now).2.isSome →
        alookup (evaluateSellSignal cfg active sym a price now).1 sym = none)
    ∧ (∀ sig, (evaluateSellSignal cfg active sym a price now).2 = some sig →
        sig.symbol = sym ∧ sig.action = Action.sell ∧
        sig.reason =
          (if now - pos.entryTime ≥ cfg.holdingPeriod then Reason.holding_period_exceeded
           else if a.sentimentScore ≤ -cfg.sentimentThreshold then Reason.negative_sentiment
           else if (price - pos.entryPrice) / pos.entryPrice ≤ -(5/100) then Reason.stop_loss
           else if (price - pos.entryPrice) / pos.entryPrice ≥ 10/100 then Reason.take_profit
           else Reason.unknown)) := by
  by_cases hc : (now - pos.entryTime ≥ cfg.holdingPeriod ∨
      a.sentimentScore ≤ -cfg.sentimentThreshold ∨
      (price - pos.entryPrice) / pos.entryPrice ≤ -(5/100) ∨
      (price - pos.entryPrice) / pos.entryPrice ≥ 10/100)
  · have he : evaluateSellSignal cfg active sym a price now =
        (aerase active sym,
         some ⟨sym, Action.sell, cfg.positionSize, "market", none, none, "gtc",
           (if now - pos.entryTime ≥ cfg.holdingPeriod then Reason.holding_period_exceeded
            else if a.sentimentScore ≤ -cfg.sentimentThreshold then Reason.negative_sentiment
            else if (price - pos.entryPrice) / pos.entryPrice ≤ -(5/100) then Reason.stop_loss
            else if (price - pos.entryPrice) / pos.entryPrice ≥ 10/100 then Reason.take_profit
            else Reason.unknown)⟩) := by
      simp only [evaluateSellSignal, hpos, if_pos hc]
    rw [he]
    refine ⟨by simp [hc], fun _ => alookup_aerase_self active sym, ?_⟩
    intro sig hsig
    simp only [Option.some.injEq] at hsig
    subst hsig
    exact ⟨rfl, rfl, rfl⟩
  · have he : evaluateSellSignal cfg active sym a price now = (active, none) := by
      simp only [evaluateSellSignal, hpos, if_neg hc]
    rw [he]
    simp [hc]

/-- Witness for C4 at Scenario D: holding period 3600000 ms not yet elapsed
(entry at 0, now 1000), sentiment 0 above -0.6, entry price 150, current
price 142.5 (return exactly -5%): a sell signal is emitted with reason
`stop_loss` and the symbol leaves the active map. -/
theorem sell_rule_disjunction_priority_witness :
    ((evaluateSellSignal ⟨6/10, 50, 100, 3600000, ["AAPL"]⟩
        [("AAPL", ⟨0, 150, "positive_sentiment_buzz"⟩)] "AAPL"
        ⟨0, 60, 2⟩ (285/2) 1000).2.isSome = true)
    ∧ (alookup (evaluateSellSignal ⟨6/10, 50, 100, 3600000, ["AAPL"]⟩
        [("AAPL", ⟨0, 150, "positive_sentiment_buzz"⟩)] "AAPL"
        ⟨0, 60, 2⟩ (285/2) 1000).1 "AAPL" = none)
    ∧ (∀ sig, (evaluateSellSignal ⟨6/10, 50, 100, 3600000, ["AAPL"]⟩
        [("AAPL", ⟨0, 150, "positive_sentiment_buzz"⟩)] "AAPL"
        ⟨0, 60, 2⟩ (285/2) 1000).2 = some sig → sig.reason = Reason.stop_loss) := by
  have h := sell_rule_disjunction_priority ⟨6/10, 50, 100, 3600000, ["AAPL"]⟩
    [("AAPL", ⟨0, 150, "positive_sentiment_buzz"⟩)] "AAPL"
    ⟨0, 60, 2⟩ (285/2) 1000 ⟨0, 150, "positive_sentiment_buzz"⟩
    (by simp [alookup])
  have hsome : (evaluateSellSignal ⟨6/10, 50, 100, 3600000, ["AAPL"]⟩
      [("AAPL", ⟨0, 150, "positive_sentiment_buzz"⟩)] "AAPL"
      ⟨0, 60, 2⟩ (285/2) 1000).2.isSome = true := by
    rw [h.1]
    norm_num
  refine ⟨hsome, h.2.1 hsome, fun sig hsig => ?_⟩
  have hr := (h.2.2 sig hsig).2.2
  rw [hr]
  norm_num

/-- Counterexample to C5 as stated: with a configuration whose holding
period is 0 (the buy conditions otherwise at Scenario C's values), one call
to `evaluate` on a flat symbol emits a buy signal and then, in the same
call, a sell signal for the same symbol (the just-created entry already
satisfies `holdingTime >= holdingPeriod`), so a single evaluation returns
two signals for one symbol. -/
theorem evaluate_two_signals_one_symbol :
    ((evaluate ⟨6/10, 50, 100, 0, ["AAPL"]⟩ []
        (fun s => if s = "AAPL" then some ⟨7/10, 60, 2⟩ else none)
        (fun s => if s = "AAPL" then some 150 else none) 1000).2.map
      (fun s => (s.symbol, s.action))) = [("AAPL", Action.buy), ("AAPL", Action.sell)] := by
  norm_num [evaluate, evalList, evalStep, evaluateBuySignal, evaluateSellSignal,
    alookup, aset, aerase]

/-- Claim C5 (amended): provided the watchlist has no duplicate entries and
the configured holding period and sentiment threshold are positive, one call
to `evaluate` emits at most one signal per symbol, for every strategy state
and input snapshot. -/
theorem at_most_one_signal_per_symbol (cfg : StratConfig)
    (hnd : cfg.watchlist.Nodup) (hhp : 0 < cfg.holdingPeriod)
    (hth : 0 < cfg.sentimentThreshold) (active : ActiveMap)
    (summary : String → Option Analysis) (md : String → Option ℚ) (now : ℚ)
    (sym : String) :
    ((evaluate cfg active summary md now).2.filter
        (fun s => s.symbol == sym)).length ≤ 1 := by
  have main : ∀ (l : List String), l.Nodup → ∀ act : ActiveMap,
      ((evalList cfg summary md now act l).2.filter
          (fun s => s.symbol == sym)).length ≤ 1 := by
    intro l
    induction l with
    | nil => intro _ act; simp [evalList]
    | cons hd tl ih =>
      intro hl act
      obtain ⟨hnotin, htl⟩ := List.nodup_cons.mp hl
      simp only [evalList, List.filter_append, List.length_append]
      by_cases hsym : hd = sym
      · subst hsym
        have hz : ((evalList cfg summary md now
            (evalStep cfg summary md now act hd).1 tl).2.filter
              (fun s => s.symbol == hd)).length = 0 := by
          rw [List.length_eq_zero, List.filter_eq_nil_iff]
          intro s hs
          have hmem := evalList_mem_symbol cfg summary md now tl
            (evalStep cfg summary md now act hd).1 s hs
          simp only [beq_iff_eq]
          intro heq
          rw [heq] at hmem
          exact hnotin hmem
        rw [hz]
        have := evalStep_length_le cfg summary md now act hd hhp hth
        have hle := List.length_filter_le (fun s => s.symbol == hd)
          (evalStep cfg summary md now act hd).2
        omega
      · have hz : ((evalStep cfg summary md now act hd).2.filter
            (fun s => s.symbol == sym)).length = 0 := by
          rw [List.length_eq_zero, List.filter_eq_nil_iff]
          intro s hs
          have := evalStep_mem_symbol cfg summary md now act hd s hs
          simp only [beq_iff_eq]
          intro heq
          exact hsym (by rw [← this, heq])
        rw [hz]
        have := ih htl (evalStep cfg summary md now act hd).1
        omega
  exact main cfg.watchlist hnd active

/-- Witness for the amended C5 at Scenario C's configuration (holding
period one hour, sentiment threshold 0.6, no duplicate watchlist entries):
the evaluation emits at most one signal for AAPL. -/
theorem at_most_one_signal_per_symbol_witness :
    ((evaluate ⟨6/10, 50, 100, 3600000, ["AAPL"]⟩ []
        (fun s => if s = "AAPL" then some ⟨7/10, 60, 2⟩ else none)
        (fun s => if s = "AAPL" then some 150 else none) 1000).2.filter
      (fun s => s.symbol == "AAPL")).length ≤ 1 :=
  at_most_one_signal_per_symbol ⟨6/10, 50, 100, 3600000, ["AAPL"]⟩
    (by simp) (by norm_num) (by norm_num) []
    (fun s => if s = "AAPL" then some ⟨7/10, 60, 2⟩ else none)
    (fun s => if s = "AAPL" then some 150 else none) 1000 "AAPL"

/-- Claim C10: the strategy's per-symbol state transition is committed at
signal-creation time inside evaluation — emitting a buy signal records the
symbol as active (entry time `now`, entry price and reason recorded) and
emitting a sell signal deletes the symbol's entry — and the engine's
signal-processing pipeline (risk gate and broker submission, including every
possible broker failure) returns the strategy state produced by `evaluate`
unchanged, so a rejected or failed order never rolls the transition back. -/
theorem strategy_state_committed_at_signal_time (cfg : StratConfig)
    (active : ActiveMap) (sym : String) (a : Analysis) (price now : ℚ) :
    (∀ sig, (evaluateBuySignal cfg active sym a price now).2 = some sig →
      alookup (evaluateBuySignal cfg active sym a price now).1 sym =
        some ⟨now, price, "positive_sentiment_buzz"⟩)
    ∧ (∀ sig, (evaluateSellSignal cfg active sym a price now).2 = some sig →
      alookup (evaluateSellSignal cfg active sym a price now).1 sym = none)
    ∧ (∀ (summary : String → Option Analysis) (md : String → Option ℚ)
        (placeOrder : BrokerOrder → Except String OrderResult)
        (today : String) (posMap : List (String × List Position))
        (name : String) (rs : RiskState) (orders : Registry),
      (strategyTick cfg active summary md now placeOrder today posMap name
          rs orders).1 = (evaluate cfg active summary md now).1) := by
  refine ⟨?_, ?_, fun _ _ _ _ _ _ _ _ => rfl⟩
  · intro sig hsig
    rw [(evaluateBuySignal_some_eq cfg active sym a price now sig hsig).2.1]
    exact alookup_aset_self active sym _
  · intro sig hsig
    cases hl : alookup active sym with
    | none => simp [evaluateSellSignal, hl] at hsig
    | some pos =>
      simp only [evaluateSellSignal, hl] at hsig ⊢
      split at hsig
      · split
        · exact alookup_aerase_self active sym
        · exact alookup_aerase_self active sym
      · simp at hsig

/-- Witness for C10: the Scenario C buy (sentiment 0.7 ≥ 0.6, buzz 60 ≥ 50,
two news mentions, price 150) marks AAPL active at entry price 150, and the
combined tick returns that state untouched even under a broker that always
fails. -/
theorem strategy_state_committed_at_signal_time_witness :
    (alookup (evaluateBuySignal ⟨6/10, 50, 100, 3600000, ["AAPL"]⟩ [] "AAPL"
        ⟨7/10, 60, 2⟩ 150 1000).1 "AAPL" = some ⟨1000, 150, "positive_sentiment_buzz"⟩)
    ∧ (strategyTick ⟨6/10, 50, 100, 3600000, ["AAPL"]⟩ []
        (fun s => if s = "AAPL" then some ⟨7/10, 60, 2⟩ else none)
        (fun s => if s = "AAPL" then some 150 else none) 1000
        (fun _ => Except.error "connection lost") "d" [] "news"
        ⟨⟨1000, 500, 1/50, 1/50, 10, []⟩, 0, 0, "d"⟩ []).1 =
      (evaluate ⟨6/10, 50, 100, 3600000, ["AAPL"]⟩ []
        (fun s => if s = "AAPL" then some ⟨7/10, 60, 2⟩ else none)
        (fun s => if s = "AAPL" then some 150 else none) 1000).1 := by
  have h := strategy_state_committed_at_signal_time ⟨6/10, 50, 100, 3600000, ["AAPL"]⟩
    [] "AAPL" ⟨7/10, 60, 2⟩ 150 1000
  refine ⟨h.1 ⟨"AAPL", Action.buy, 100, "market", none, none, "gtc",
      Reason.positive_sentiment_buzz⟩ ?_,
    h.2.2 _ _ _ "d" [] "news" ⟨⟨1000, 500, 1/50, 1/50, 10, []⟩, 0, 0, "d"⟩ []⟩
  norm_num [evaluateBuySignal, alookup]

/-! ### Claims about the execution engine -/

/-- Claim C1: order-submission atomicity.  A registry entry is added exactly
when the broker's `placeOrder` succeeds: on success the registry gains the
entry under the broker-assigned id (and `order_placed` fires); when
`placeOrder` throws, the registry is left unchanged (`order_failed` fires
instead); and in the signal loop a failed submission leaves the registry
untouched while processing continues with the remaining signals. -/
theorem order_submission_atomicity
    (placeOrder : BrokerOrder → Except String OrderResult)
    (name : String) (sig : Signal) (orders : Registry) :
    (∀ res, placeOrder (toBrokerOrder sig) = Except.ok res →
      executeSignal placeOrder name sig orders =
        (aset orders res.orderId (mkOrderInfo res name sig),
         [EngineEvent.order_placed res.orderId]))
    ∧ (∀ e, placeOrder (toBrokerOrder sig) = Except.error e →
      executeSignal placeOrder name sig orders =
        (orders, [EngineEvent.order_failed sig.symbol]))
    ∧ (∀ (today : String) (posMap : List (String × List Position))
        (rs rs' : RiskState) (s : Signal) (e : String) (rest : List Signal),
      validateSignal today rs sig posMap = (rs', some s) →
      placeOrder (toBrokerOrder s) = Except.error e →
      processSignals placeOrder today posMap name rs orders (sig :: rest) =
        ((processSignals placeOrder today posMap name rs' orders rest).1,
         (processSignals placeOrder today posMap name rs' orders rest).2.1,
         EngineEvent.order_failed s.symbol ::
           (processSignals placeOrder today posMap name rs' orders rest).2.2)) := by
  refine ⟨?_, ?_, ?_⟩
  · intro res hok
    simp [executeSignal, hok]
  · intro e herr
    simp [executeSignal, herr]
  · intro today posMap rs rs' s e rest hval herr
    simp only [processSignals, hval]
    simp [executeSignal, herr]

/-- Witness for C1: against a broker that always throws, a concrete valid
signal leaves an empty registry empty and the loop result equals the
continuation on the remaining (empty) signal list. -/
theorem order_submission_atomicity_witness :
    (executeSignal (fun _ => Except.error "rejected") "news"
        ⟨"AAPL", Action.buy, 10, "market", none, none, "gtc",
          Reason.positive_sentiment_buzz⟩ [] =
      ([], [EngineEvent.order_failed "AAPL"]))
    ∧ (processSignals (fun _ => Except.error "rejected") "d" [] "news"
        ⟨⟨1000, 500, 1/50, 1/50, 10, []⟩, 0, 0, "d"⟩ []
        [⟨"AAPL", Action.buy, 10, "market", none, none, "gtc",
          Reason.positive_sentiment_buzz⟩] =
      (⟨⟨1000, 500, 1/50, 1/50, 10, []⟩, 0, 0, "d"⟩, [],
       [EngineEvent.order_failed "AAPL"])) := by
  have h := order_submission_atomicity (fun _ => Except.error "rejected") "news"
    ⟨"AAPL", Action.buy, 10, "market", none, none, "gtc",
      Reason.positive_sentiment_buzz⟩ []
  refine ⟨h.2.1 "rejected" rfl, ?_⟩
  have h3 := h.2.2 "d" [] ⟨⟨1000, 500, 1/50, 1/50, 10, []⟩, 0, 0, "d"⟩
    ⟨⟨1000, 500, 1/50, 1/50, 10, []⟩, 0, 0, "d"⟩
    ⟨"AAPL", Action.buy, 10, "market", none, none, "gtc",
      Reason.positive_sentiment_buzz⟩ "rejected" [] ?_ rfl
  · rw [h3]
    simp [processSignals]
  · norm_num [validateSignal, validateOrder, resetDailyCountersIfNeeded, orderValue,
      effectivePrice, flattenPositions, validatePortfolioRisk,
      validatePositionConcentration, totalAbsValue, absMarketValue, Action.sideString]
    intro hfalse
    exact absurd hfalse (by decide)

/-- Counterexample to C7 as stated: the registry is a plain `Map.set`; when
the broker returns an id that is already tracked, `executeSignal` raises no
DuplicateOrder condition — it emits `order_placed` and silently replaces the
previously recorded entry (here the stored strategy name changes from "old"
to "news", so the prior entry is not left intact). -/
theorem duplicate_id_silently_replaced :
    (executeSignal (fun _ => Except.ok ⟨"X", "AAPL", 10, "buy", "market", "accepted"⟩)
        "news" ⟨"AAPL", Action.buy, 10, "market", none, none, "gtc",
          Reason.positive_sentiment_buzz⟩
        [("X", ⟨"X", "AAPL", 10, "buy", "market", "new", none, none, "old",
          ⟨"AAPL", Action.buy, 10, "market", none, none, "gtc",
            Reason.positive_sentiment_buzz⟩⟩)]).2 =
      [EngineEvent.order_placed "X"]
    ∧ (alookup (executeSignal
        (fun _ => Except.ok ⟨"X", "AAPL", 10, "buy", "market", "accepted"⟩)
        "news" ⟨"AAPL", Action.buy, 10, "market", none, none, "gtc",
          Reason.positive_sentiment_buzz⟩
        [("X", ⟨"X", "AAPL", 10, "buy", "market", "new", none, none, "old",
          ⟨"AAPL", Action.buy, 10, "market", none, none, "gtc",
            Reason.positive_sentiment_buzz⟩⟩)]).1 "X").map (fun i => i.strategyName) =
      some "news" := by
  constructor
  · rfl
  · rfl

/-- Claim C7 (amended): recording a submitted order whose broker-assigned id
already exists in the registry raises no DuplicateOrder condition; the new
entry silently replaces the previously recorded order under that id and the
submission is reported as placed. -/
theorem duplicate_id_overwrites
    (placeOrder : BrokerOrder → Except String OrderResult)
    (name : String) (sig : Signal) (orders : Registry) (res : OrderResult)
    (hok : placeOrder (toBrokerOrder sig) = Except.ok res) :
    alookup (executeSignal placeOrder name sig orders).1 res.orderId =
      some (mkOrderInfo res name sig)
    ∧ (executeSignal placeOrder name sig orders).2 =
      [EngineEvent.order_placed res.orderId] := by
  constructor
  · simp only [executeSignal, hok]
    exact alookup_aset_self orders res.orderId _
  · simp [executeSignal, hok]

/-- Witness for the amended C7: with id "X" already tracked, a successful
submission returning id "X" leaves the new entry, not the old one, under
"X". -/
theorem duplicate_id_overwrites_witness :
    alookup (executeSignal
        (fun _ => Except.ok ⟨"X", "AAPL", 10, "buy", "market", "accepted"⟩)
        "news" ⟨"AAPL", Action.buy, 10, "market", none, none, "gtc",
          Reason.positive_sentiment_buzz⟩
        [("X", ⟨"X", "AAPL", 10, "buy", "market", "new", none, none, "old",
          ⟨"AAPL", Action.buy, 10, "market", none, none, "gtc",
            Reason.positive_sentiment_buzz⟩⟩)]).1 "X" =
      some (mkOrderInfo ⟨"X", "AAPL", 10, "buy", "market", "accepted"⟩ "news"
        ⟨"AAPL", Action.buy, 10, "market", none, none, "gtc",
          Reason.positive_sentiment_buzz⟩) :=
  (duplicate_id_overwrites
    (fun _ => Except.ok ⟨"X", "AAPL", 10, "buy", "market", "accepted"⟩)
    "news" ⟨"AAPL", Action.buy, 10, "market", none, none, "gtc",
      Reason.positive_sentiment_buzz⟩
    [("X", ⟨"X", "AAPL", 10, "buy", "market", "new", none, none, "old",
      ⟨"AAPL", Action.buy, 10, "market", none, none, "gtc",
        Reason.positive_sentiment_buzz⟩⟩)]
    ⟨"X", "AAPL", 10, "buy", "market", "accepted"⟩ rfl).1

theorem processOrders_idem (history : List OrderSnapshot) :
    ∀ orders : Registry,
      processOrders history (processOrders history orders).1 =
        ((processOrders history orders).1, []) := by
  intro orders
  induction orders with
  | nil => rfl
  | cons hd tl ih =>
    obtain ⟨oid, info⟩ := hd
    cases hf : history.find? (fun o => o.orderId == oid) with
    | none => simp only [processOrders, hf, ih]
    | some cur =>
      by_cases hst : cur.status ≠ info.status
      · simp only [processOrders, hf, if_pos hst, ih]
        have hms : (mergeOrder info cur).status = cur.status := rfl
        simp [hms]
      · simp only [processOrders, hf, if_neg hst, ih]

theorem processOrders_mem_not_found (history : List OrderSnapshot) :
    ∀ (orders : Registry) (p : String × OrderInfo), p ∈ orders →
      history.find? (fun o => o.orderId == p.1) = none →
      p ∈ (processOrders history orders).1 := by
  intro orders
  induction orders with
  | nil => intro p hp _; simp at hp
  | cons hd tl ih =>
    intro p hp hf
    obtain ⟨oid, info⟩ := hd
    rcases List.mem_cons.mp hp with heq | hmem
    · subst heq
      simp only [processOrders, hf]
      exact List.mem_cons_self _ _
    · cases hf2 : history.find? (fun o => o.orderId == oid) with
      | none =>
        simp only [processOrders, hf2]
        exact List.mem_cons_of_mem _ (ih p hmem hf)
      | some cur =>
        by_cases hst : cur.status ≠ info.status
        · simp only [processOrders, hf2, if_pos hst]
          exact List.mem_cons_of_mem _ (ih p hmem hf)
        · simp only [processOrders, hf2, if_neg hst]
          exact List.mem_cons_of_mem _ (ih p hmem hf)

/-- Claim C6: reconciliation is idempotent and tolerates omissions —
applying the same order-history snapshot a second time changes no registry
entry and emits no `order_updated` event, and a tracked order whose id does
not appear in the snapshot is left in the registry unchanged. -/
theorem reconciliation_idempotent_and_tolerant (history : List OrderSnapshot)
    (orders : Registry) :
    (processOrders history (processOrders history orders).1 =
      ((processOrders history orders).1, []))
    ∧ (∀ p ∈ orders, history.find? (fun o => o.orderId == p.1) = none →
        p ∈ (processOrders history orders).1) :=
  ⟨processOrders_idem history orders,
   fun p hp hf => processOrders_mem_not_found history orders p hp hf⟩

/-- Witness for C6: a registry tracking order "X" reconciled against a
history that only mentions "Y" keeps "X"'s entry, and the second
application emits nothing. -/
theorem reconciliation_idempotent_and_tolerant_witness :
    (processOrders [⟨"Y", "TSLA", 5, "buy", "market", "filled", 5, 200⟩]
      (processOrders [⟨"Y", "TSLA", 5, "buy", "market", "filled", 5, 200⟩]
        [("X", ⟨"X", "AAPL", 10, "buy", "market", "new", none, none, "news",
          ⟨"AAPL", Action.buy, 10, "market", none, none, "gtc",
            Reason.positive_sentiment_buzz⟩⟩)]).1 =
      ((processOrders [⟨"Y", "TSLA", 5, "buy", "market", "filled", 5, 200⟩]
        [("X", ⟨"X", "AAPL", 10, "buy", "market", "new", none, none, "news",
          ⟨"AAPL", Action.buy, 10, "market", none, none, "gtc",
            Reason.positive_sentiment_buzz⟩⟩)]).1, []))
    ∧ ("X", (⟨"X", "AAPL", 10, "buy", "market", "new", none, none, "news",
        ⟨"AAPL", Action.buy, 10, "market", none, none, "gtc",
          Reason.positive_sentiment_buzz⟩⟩ : OrderInfo)) ∈
      (processOrders [⟨"Y", "TSLA", 5, "buy", "market", "filled", 5, 200⟩]
        [("X", ⟨"X", "AAPL", 10, "buy", "market", "new", none, none, "news",
          ⟨"AAPL", Action.buy, 10, "market", none, none, "gtc",
            Reason.positive_sentiment_buzz⟩⟩)]).1 := by
  have h := reconciliation_idempotent_and_tolerant
    [⟨"Y", "TSLA", 5, "buy", "market", "filled", 5, 200⟩]
    [("X", ⟨"X", "AAPL", 10, "buy", "market", "new", none, none, "news",
      ⟨"AAPL", Action.buy, 10, "market", none, none, "gtc",
        Reason.positive_sentiment_buzz⟩⟩)]
  exact ⟨h.1, h.2 _ (List.mem_cons_self _ _) rfl⟩

/-- Counterexample to C8 as stated: calling `start()` on an engine whose
running flag is set does raise an error (`Trading engine is already
running`), contradicting the claim that it is merely a logged no-op. -/
theorem start_when_running_raises :
    (start (fun _ => Except.ok ()) ["alpaca"] ⟨true, [], [], []⟩).2 =
      some "Trading engine is already running" := rfl

/-- Claim C8 (amended): calling `start()` while the engine is already
running throws `Trading engine is already running` before any mutation, so
the engine's state (running flag, strategies, orders, positions) is left
unchanged. -/
theorem start_already_running (auth : String → Except String Unit)
    (brokerNames : List String) (st : EngineState) (h : st.running = true) :
    start auth brokerNames st = (st, some "Trading engine is already running") := by
  simp [start, h]

/-- Witness for the amended C8 on a concrete running engine. -/
theorem start_already_running_witness :
    start (fun _ => Except.ok ()) ["alpaca"] ⟨true, [], [], []⟩ =
      (⟨true, [], [], []⟩, some "Trading engine is already running") :=
  start_already_running (fun _ => Except.ok ()) ["alpaca"] ⟨true, [], [], []⟩ rfl

end Trading
